import Mathlib

/-!
Verification development for the devops-playbook kernel-tracing agents.

Each section is a shallow embedding of one of the four user-space agents in
src/observability/ebpf/programs/ (deployment_tracker.py, error_detector.py,
latency_tracker.py, performance_monitor.py), together with theorems about the
correlation state tables, lifecycle transitions and histogram aggregation they
implement.  Python dicts and BPF hash maps are modelled as option-valued
functions or association lists, machine integers as naturals with explicit
reduction modulo 2^w where the source relies on wrap-around, and float
arithmetic on durations as exact rational arithmetic.
-/

set_option maxRecDepth 10000
set_option linter.unnecessarySeqFocus false

namespace DevOpsPlaybook

/-- One point update of a keyed table (a Python dict or BPF hash map):
`v = some r` models `table[k] = r`, `v = none` models `del table[k]`. -/
def mapUpd {κ α : Type} [DecidableEq κ] (t : κ → Option α) (k : κ) (v : Option α) :
    κ → Option α :=
  fun k' => if k' = k then v else t k'

/-- Python `s.startswith(p)`, spelled out on the underlying character lists. -/
def strStartsWith (s p : String) : Bool := p.data.isPrefixOf s.data

theorem mapUpd_same {κ α : Type} [DecidableEq κ] (t : κ → Option α) (k : κ) (v : Option α) :
    mapUpd t k v k = v := by
  simp [mapUpd]

theorem mapUpd_other {κ α : Type} [DecidableEq κ] (t : κ → Option α) (k k' : κ)
    (v : Option α) (h : k' ≠ k) : mapUpd t k v k' = t k' := by
  simp [mapUpd, h]

namespace DeploymentTracker

/-- A decoded container lifecycle event as dispatched to
`DeploymentTracker.process_event`: the `event_type` tag (3 = container start,
4 = container stop), the kernel timestamp in nanoseconds, and the decoded
container id string. -/
structure DepEvent where
  event_type : Nat
  timestamp : Nat
  container_id : String
  deriving DecidableEq, Repr

/-- The record stored in `self.deployments[container_id]` on a container
start event (deployment_tracker.py lines 166-170). -/
structure Deployment where
  service : String
  start_time : Nat
  environment : String
  deriving DecidableEq, Repr

/-- The completed-deployment sample emitted on a matched container stop:
the observation fed to the `dora_deployment_duration_seconds` histogram
(duration in seconds, computed as `(stop_ts - start_ts) / 1e9`), together
with the container id of the deployment it closes. -/
structure DepSample where
  container_id : String
  service : String
  environment : String
  duration : ℚ
  deriving DecidableEq, Repr

/-- Exporter side effects of `process_event` other than duration samples:
`dora_deployments_total` counter increments and `dora_active_deployments`
gauge movements. -/
inductive DepEffect where
  | counterInc (service environment status : String)
  | gaugeInc (service environment : String)
  | gaugeDec (service environment : String)
  deriving DecidableEq, Repr

/-- The user-space state of the deployment tracker: the active-deployments
dict, the `container_to_service` mapping (never written by the program, so
empty in any run of the source), and the environment string computed once
from the hostname by `get_environment`. -/
structure DepState where
  deployments : String → Option Deployment
  containerToService : String → Option String
  environment : String

/-- `DeploymentTracker.get_service_from_container` (lines 209-224). -/
def getServiceFromContainer (st : DepState) (cid : String) : String :=
  match st.containerToService cid with
  | some s => s
  | none =>
    if strStartsWith cid "api-" then "api-service"
    else if strStartsWith cid "web-" then "web-frontend"
    else if strStartsWith cid "db-" then "database"
    else "unknown"

/-- The key under which `process_event` files an event: the decoded container
id truncated to 12 characters (line 157). -/
def depKey (e : DepEvent) : String := e.container_id.take 12

/-- `DeploymentTracker.process_event` (lines 152-207): a container start
(event type 3) stores a fresh `Deployment` record under the key, overwriting
any record already there, and bumps the started counter and the active gauge;
a container stop (event type 4) with an open record emits one duration sample,
bumps the completed counter, decrements the gauge and deletes the record,
while a stop with no open record does nothing at all. -/
def processEvent (st : DepState) (e : DepEvent) :
    DepState × List DepSample × List DepEffect :=
  let cid := depKey e
  let service := getServiceFromContainer st cid
  let env := st.environment
  if e.event_type = 3 then
    let newDep : Deployment :=
      { service := service, start_time := e.timestamp, environment := env }
    ({ st with deployments := mapUpd st.deployments cid (some newDep) },
     [],
     [DepEffect.counterInc service env "started", DepEffect.gaugeInc service env])
  else if e.event_type = 4 then
    match st.deployments cid with
    | some dep =>
      ({ st with deployments := mapUpd st.deployments cid none },
       [{ container_id := cid, service := service, environment := env,
          duration := ((e.timestamp : ℚ) - (dep.start_time : ℚ)) / 1000000000 }],
       [DepEffect.counterInc service env "completed", DepEffect.gaugeDec service env])
    | none => (st, [], [])
  else (st, [], [])

/-- Dispatching a whole event sequence through `process_event`, accumulating
the emitted samples and exporter effects in order. -/
def runDep (st : DepState) : List DepEvent → DepState × List DepSample × List DepEffect
  | [] => (st, [], [])
  | e :: es =>
    let r := processEvent st e
    let rest := runDep r.1 es
    (rest.1, r.2.1 ++ rest.2.1, r.2.2 ++ rest.2.2)

/-- The events that can touch the table entry of container key `k`:
lifecycle events (type 3 or 4) filed under `k`. -/
def isLifecycleFor (k : String) (e : DepEvent) : Bool :=
  depKey e == k && (e.event_type == 3 || e.event_type == 4)

/-- The completed samples belonging to container key `k`. -/
def samplesFor (k : String) (l : List DepSample) : List DepSample :=
  l.filter (fun s => s.container_id == k)

/-- A fresh tracker state: empty deployments dict, empty
`container_to_service` dict, development environment. -/
def demoDepState : DepState :=
  { deployments := fun _ => none, containerToService := fun _ => none,
    environment := "development" }

theorem processEvent_containerToService (st : DepState) (e : DepEvent) :
    (processEvent st e).1.containerToService = st.containerToService := by
  by_cases h3 : e.event_type = 3 <;> by_cases h4 : e.event_type = 4 <;>
    simp only [processEvent, h3, h4, if_true, if_false] <;>
    first
    | rfl
    | (cases hd : st.deployments (depKey e) <;> simp [hd])

theorem processEvent_environment (st : DepState) (e : DepEvent) :
    (processEvent st e).1.environment = st.environment := by
  by_cases h3 : e.event_type = 3 <;> by_cases h4 : e.event_type = 4 <;>
    simp only [processEvent, h3, h4, if_true, if_false] <;>
    first
    | rfl
    | (cases hd : st.deployments (depKey e) <;> simp [hd])

theorem getService_congr (st st' : DepState)
    (h : st.containerToService = st'.containerToService) (c : String) :
    getServiceFromContainer st c = getServiceFromContainer st' c := by
  unfold getServiceFromContainer
  rw [h]

theorem getService_processEvent (st : DepState) (e : DepEvent) (c : String) :
    getServiceFromContainer (processEvent st e).1 c = getServiceFromContainer st c :=
  getService_congr _ _ (processEvent_containerToService st e) c

theorem processEvent_sample_key (st : DepState) (e : DepEvent) (s : DepSample)
    (h : s ∈ (processEvent st e).2.1) : s.container_id = depKey e := by
  by_cases h3 : e.event_type = 3
  · simp [processEvent, h3] at h
  · by_cases h4 : e.event_type = 4
    · simp only [processEvent, h3, h4, if_true, if_false] at h
      cases hd : st.deployments (depKey e) <;> rw [hd] at h <;> simp at h
      rw [h]
    · simp [processEvent, h3, h4] at h

theorem processEvent_other_key (st : DepState) (e : DepEvent) (k : String)
    (h : depKey e ≠ k) : (processEvent st e).1.deployments k = st.deployments k := by
  by_cases h3 : e.event_type = 3
  · simp [processEvent, h3, mapUpd_other _ _ _ _ (Ne.symm h)]
  · by_cases h4 : e.event_type = 4
    · simp only [processEvent, h3, h4, if_true, if_false]
      cases hd : st.deployments (depKey e) <;>
        simp [hd, mapUpd_other _ _ _ _ (Ne.symm h)]
    · simp [processEvent, h3, h4]

theorem processEvent_non_lifecycle (st : DepState) (e : DepEvent)
    (h3 : e.event_type ≠ 3) (h4 : e.event_type ≠ 4) :
    processEvent st e = (st, [], []) := by
  simp [processEvent, h3, h4]

theorem samplesFor_append (k : String) (a b : List DepSample) :
    samplesFor k (a ++ b) = samplesFor k a ++ samplesFor k b := by
  simp [samplesFor]

theorem processEvent_step_irrelevant (k : String) (st : DepState) (e : DepEvent)
    (hk : ¬ isLifecycleFor k e) :
    (processEvent st e).1.deployments k = st.deployments k ∧
    samplesFor k (processEvent st e).2.1 = [] := by
  simp only [isLifecycleFor, Bool.and_eq_true, Bool.or_eq_true, beq_iff_eq,
    not_and_or, not_or] at hk
  rcases hk with hne | ⟨h3, h4⟩
  · refine ⟨processEvent_other_key st e k hne, ?_⟩
    rw [samplesFor, List.filter_eq_nil_iff]
    intro s hs
    have := processEvent_sample_key st e s hs
    simp [this, hne]
  · rw [processEvent_non_lifecycle st e h3 h4]
    simp [samplesFor]

theorem runDep_not_lifecycle (k : String) (st : DepState) (es : List DepEvent)
    (h : es.filter (isLifecycleFor k) = []) :
    (runDep st es).1.deployments k = st.deployments k ∧
    samplesFor k (runDep st es).2.1 = [] := by
  induction es generalizing st with
  | nil => simp [runDep, samplesFor]
  | cons e es ih =>
    rw [List.filter_cons] at h
    by_cases hk : isLifecycleFor k e
    · simp [hk] at h
    · simp only [hk, if_false, Bool.false_eq_true] at h
      have hstep := processEvent_step_irrelevant k st e hk
      have hrest := ih (processEvent st e).1 h
      refine ⟨?_, ?_⟩
      · rw [runDep]
        rw [hrest.1, hstep.1]
      · rw [runDep]
        simp only [samplesFor_append, hstep.2, hrest.2, List.nil_append]

theorem runDep_stop_only (k : String) (st : DepState) (es : List DepEvent) (t : DepEvent)
    (d : Deployment)
    (hf : es.filter (isLifecycleFor k) = [t]) (ht : t.event_type = 4)
    (hd : st.deployments k = some d) :
    samplesFor k (runDep st es).2.1 =
      [{ container_id := k, service := getServiceFromContainer st k,
         environment := st.environment,
         duration := ((t.timestamp : ℚ) - (d.start_time : ℚ)) / 1000000000 }] ∧
    (runDep st es).1.deployments k = none := by
  induction es generalizing st with
  | nil => simp at hf
  | cons e es ih =>
    rw [List.filter_cons] at hf
    by_cases hk : isLifecycleFor k e
    · simp only [hk, if_true, List.cons.injEq] at hf
      obtain ⟨rfl, hrest⟩ := hf
      have hkey : depKey e = k := by
        simp only [isLifecycleFor, Bool.and_eq_true, beq_iff_eq] at hk
        exact hk.1
      have h3 : e.event_type ≠ 3 := by rw [ht]; decide
      have hstep :
          processEvent st e =
            ({ st with deployments := mapUpd st.deployments k none },
             [{ container_id := k, service := getServiceFromContainer st k,
                environment := st.environment,
                duration := ((e.timestamp : ℚ) - (d.start_time : ℚ)) / 1000000000 }],
             [DepEffect.counterInc (getServiceFromContainer st k) st.environment "completed",
              DepEffect.gaugeDec (getServiceFromContainer st k) st.environment]) := by
        simp only [processEvent, if_neg h3, if_pos ht, hkey, hd]
      have hnone : ({ st with deployments := mapUpd st.deployments k none } :
          DepState).deployments k = none := mapUpd_same _ _ _
      have hafter := runDep_not_lifecycle k
        ({ st with deployments := mapUpd st.deployments k none }) es hrest
      refine ⟨?_, ?_⟩
      · simp only [runDep, hstep, samplesFor_append]
        rw [hafter.2]
        simp [samplesFor]
      · simp only [runDep, hstep]
        rw [hafter.1, hnone]
    · simp only [hk, if_false, Bool.false_eq_true] at hf
      have hstep := processEvent_step_irrelevant k st e hk
      have hrec := ih (processEvent st e).1 hf (by rw [hstep.1]; exact hd)
      refine ⟨?_, ?_⟩
      · rw [runDep]
        simp only [samplesFor_append, hstep.2, List.nil_append]
        rw [hrec.1]
        rw [getService_processEvent, processEvent_environment]
      · rw [runDep]
        exact hrec.2

/-- C4: for every container key k, if the lifecycle events filed under k are
exactly one ContainerStart followed (later) by one ContainerStop — with events
for other containers arbitrarily interleaved — and k starts with no open
deployment, then exactly one completed sample is emitted for k, its duration
(in seconds) is exactly (stop_ts - start_ts) / 1e9, and k's entry is gone from
the active deployments table at the end. -/
theorem start_stop_exactly_one_sample (k : String) (st : DepState) (es : List DepEvent)
    (s t : DepEvent)
    (hf : es.filter (isLifecycleFor k) = [s, t])
    (hs : s.event_type = 3) (ht : t.event_type = 4)
    (h0 : st.deployments k = none) :
    samplesFor k (runDep st es).2.1 =
      [{ container_id := k, service := getServiceFromContainer st k,
         environment := st.environment,
         duration := ((t.timestamp : ℚ) - (s.timestamp : ℚ)) / 1000000000 }] ∧
    (runDep st es).1.deployments k = none := by
  induction es generalizing st with
  | nil => simp at hf
  | cons e es ih =>
    rw [List.filter_cons] at hf
    by_cases hk : isLifecycleFor k e
    · simp only [hk, if_true, List.cons.injEq] at hf
      obtain ⟨rfl, hrest⟩ := hf
      have hkey : depKey e = k := by
        simp only [isLifecycleFor, Bool.and_eq_true, beq_iff_eq] at hk
        exact hk.1
      have hstep :
          processEvent st e =
            ({ st with deployments :=
                 (mapUpd st.deployments k
                   (some { service := getServiceFromContainer st k,
                           start_time := e.timestamp, environment := st.environment })) },
             [],
             [DepEffect.counterInc (getServiceFromContainer st k) st.environment "started",
              DepEffect.gaugeInc (getServiceFromContainer st k) st.environment]) := by
        simp only [processEvent, if_pos hs, hkey]
      have hopen : ({ st with deployments :=
            (mapUpd st.deployments k
              (some { service := getServiceFromContainer st k,
                      start_time := e.timestamp, environment := st.environment })) } :
          DepState).deployments k =
          some { service := getServiceFromContainer st k,
                 start_time := e.timestamp, environment := st.environment } :=
        mapUpd_same _ _ _
      have hafter := runDep_stop_only k
        ({ st with deployments :=
             (mapUpd st.deployments k
               (some { service := getServiceFromContainer st k,
                       start_time := e.timestamp, environment := st.environment })) })
        es t
        { service := getServiceFromContainer st k, start_time := e.timestamp,
          environment := st.environment }
        hrest ht hopen
      have hsvc : getServiceFromContainer
          ({ st with deployments :=
             (mapUpd st.deployments k
               (some { service := getServiceFromContainer st k,
                       start_time := e.timestamp, environment := st.environment })) }) k =
          getServiceFromContainer st k :=
        getService_congr _ _ rfl k
      refine ⟨?_, ?_⟩
      · simp only [runDep, hstep, samplesFor_append]
        rw [hafter.1]
        simp only [samplesFor, List.filter_nil, List.nil_append]
        rw [hsvc]
      · simp only [runDep, hstep]
        exact hafter.2
    · simp only [hk, if_false, Bool.false_eq_true] at hf
      have hstep := processEvent_step_irrelevant k st e hk
      have hrec := ih (processEvent st e).1 hf (by rw [hstep.1]; exact h0)
      refine ⟨?_, ?_⟩
      · rw [runDep]
        simp only [samplesFor_append, hstep.2, List.nil_append]
        rw [hrec.1]
        rw [getService_processEvent, processEvent_environment]
      · rw [runDep]
        exact hrec.2

theorem start_stop_exactly_one_sample_witness :
    (([⟨3, 0, "c1"⟩, ⟨2, 1, "other"⟩, ⟨4, 7, "c1"⟩] : List DepEvent).filter
        (isLifecycleFor "c1") = [⟨3, 0, "c1"⟩, ⟨4, 7, "c1"⟩]) ∧
    demoDepState.deployments "c1" = none ∧
    (samplesFor "c1" (runDep demoDepState [⟨3, 0, "c1"⟩, ⟨2, 1, "other"⟩, ⟨4, 7, "c1"⟩]).2.1 =
      [{ container_id := "c1", service := getServiceFromContainer demoDepState "c1",
         environment := demoDepState.environment,
         duration := (((7 : Nat) : ℚ) - ((0 : Nat) : ℚ)) / 1000000000 }] ∧
     (runDep demoDepState [⟨3, 0, "c1"⟩, ⟨2, 1, "other"⟩, ⟨4, 7, "c1"⟩]).1.deployments "c1" =
       none) :=
  ⟨by decide, by decide,
   start_stop_exactly_one_sample "c1" demoDepState
     [⟨3, 0, "c1"⟩, ⟨2, 1, "other"⟩, ⟨4, 7, "c1"⟩] ⟨3, 0, "c1"⟩ ⟨4, 7, "c1"⟩
     (by decide) rfl rfl (by decide)⟩

/-- C3: the concrete scenario ContainerStart("c1", t=0s), ContainerStart("c1",
t=5s), ContainerStop("c1", t=20s) emits exactly one completed sample, of
duration 15 seconds (latest start wins), not 20; and in general a repeated
ContainerStart for an already-open key overwrites the stored record with a
fresh one carrying the new start_ts, emits no sample, and is counted again
through the started-status deployment counter. -/
theorem repeated_start_latest_wins :
    ((runDep demoDepState
        [⟨3, 0, "c1"⟩, ⟨3, 5000000000, "c1"⟩, ⟨4, 20000000000, "c1"⟩]).2.1 =
      [{ container_id := "c1", service := "unknown", environment := "development",
         duration := 15 }]) ∧
    ∀ (st : DepState) (e : DepEvent) (d : Deployment), e.event_type = 3 →
      st.deployments (depKey e) = some d →
      (processEvent st e).1.deployments (depKey e) =
        some { service := getServiceFromContainer st (depKey e),
               start_time := e.timestamp, environment := st.environment } ∧
      (processEvent st e).2.1 = [] ∧
      DepEffect.counterInc (getServiceFromContainer st (depKey e)) st.environment "started"
        ∈ (processEvent st e).2.2 := by
  refine ⟨?_, ?_⟩
  · norm_num [runDep, processEvent, depKey, getServiceFromContainer, strStartsWith, mapUpd,
      demoDepState]
    exact ⟨by decide, by decide⟩
  · intro st e d h3 _
    refine ⟨?_, ?_, ?_⟩
    · simp only [processEvent, if_pos h3]
      exact mapUpd_same _ _ _
    · simp only [processEvent, if_pos h3]
    · simp only [processEvent, if_pos h3]
      exact List.mem_cons_self _ _

theorem repeated_start_latest_wins_witness :
    ((⟨3, 5, "c1"⟩ : DepEvent).event_type = 3) ∧
    (({ demoDepState with deployments :=
         (mapUpd (fun _ => none) "c1"
           (some { service := "unknown", start_time := 0, environment := "development" })) } :
       DepState).deployments (depKey ⟨3, 5, "c1"⟩) =
      some { service := "unknown", start_time := 0, environment := "development" }) ∧
    ((processEvent
        { demoDepState with deployments :=
            (mapUpd (fun _ => none) "c1"
              (some { service := "unknown", start_time := 0,
                      environment := "development" })) }
        ⟨3, 5, "c1"⟩).1.deployments (depKey ⟨3, 5, "c1"⟩) =
      some { service := getServiceFromContainer
               { demoDepState with deployments :=
                   (mapUpd (fun _ => none) "c1"
                     (some { service := "unknown", start_time := 0,
                             environment := "development" })) } (depKey ⟨3, 5, "c1"⟩),
             start_time := 5, environment := "development" }) :=
  ⟨by decide, by decide,
   (repeated_start_latest_wins.2 _ ⟨3, 5, "c1"⟩
       { service := "unknown", start_time := 0, environment := "development" }
       (by decide) (by decide)).1⟩

/-- C8: a ContainerStop for a container key with no open deployment entry is a
complete no-op: the state (in particular the deployments table and thereby
every deployment metric) is returned unchanged, no completed sample is
emitted, and no counter or gauge effect is produced. -/
theorem orphan_stop_noop (st : DepState) (e : DepEvent)
    (h4 : e.event_type = 4) (h : st.deployments (depKey e) = none) :
    processEvent st e = (st, [], []) := by
  have h3 : e.event_type ≠ 3 := by rw [h4]; decide
  simp only [processEvent, if_neg h3, if_pos h4, h]

theorem orphan_stop_noop_witness :
    ((⟨4, 99, "ghost"⟩ : DepEvent).event_type = 4) ∧
    (demoDepState.deployments (depKey ⟨4, 99, "ghost"⟩) = none) ∧
    processEvent demoDepState ⟨4, 99, "ghost"⟩ = (demoDepState, [], []) :=
  ⟨by decide, by decide, orphan_stop_noop demoDepState ⟨4, 99, "ghost"⟩ rfl (by decide)⟩

end DeploymentTracker

namespace ErrorDetector

/-- The record stored in the user-space `self.incidents` dict by
`ErrorDetector.process_error_event` (error_detector.py lines 263-272).
Timestamps are nanoseconds; `start_time` comes from the kernel event
timestamp.  Note the record has no last-seen field: the source never stores
one. -/
structure Incident where
  service : String
  error_type : String
  severity : String
  start_time : ℚ
  error_count : Nat
  resolved : Bool
  deriving DecidableEq, Repr

/-- Exporter side effects of the error detector: `dora_errors_total` counter
increments, `dora_active_incidents` gauge movements, `dora_mttr_seconds`
histogram observations (the MTTR duration samples, in seconds), and
`dora_change_failure_rate` gauge sets. -/
inductive EDEffect where
  | errorCounterInc (service error_type severity : String)
  | incidentGaugeInc (service severity : String)
  | incidentGaugeDec (service severity : String)
  | mttrObserve (service severity : String) (value : ℚ)
  | failureRateSet (service environment : String) (value : ℚ)
  deriving DecidableEq, Repr

/-- User-space state of the error detector: the incidents dict (an
insertion-ordered association list, like a Python dict), and the two
defaultdict counters read by `update_failure_rate`. -/
structure EDState where
  incidents : List (String × Incident)
  failure_count : String → Nat
  deployment_count : String → Nat

/-- `ErrorDetector.get_error_type_label` (lines 228-238). -/
def getErrorTypeLabel (n : Nat) : String :=
  if n = 1 then "segfault"
  else if n = 2 then "oom_kill"
  else if n = 3 then "kernel_panic"
  else if n = 4 then "http_5xx"
  else if n = 5 then "connection_refused"
  else if n = 6 then "timeout"
  else if n = 7 then "exception"
  else "unknown"

/-- Python dict lookup on the insertion-ordered association list. -/
def lookupInc (l : List (String × Incident)) (k : String) : Option Incident :=
  (l.find? (fun p => p.1 == k)).map (fun p => p.2)

/-- `ErrorDetector.process_error_event` (lines 240-282): derives the severity
string from the error type (crash classes 1-3 are high, everything else
medium), increments the error counter, then either creates a fresh incident
record under key service-errortype (bumping the active-incident gauge) or
increments the existing record's error_count — nothing else of the existing
record changes — and finally runs `update_failure_rate` (lines 284-296). -/
def processErrorEvent (st : EDState) (ts : ℚ) (comm : String) (etype : Nat) :
    EDState × List EDEffect :=
  let service := comm
  let error_type := getErrorTypeLabel etype
  let severity := if etype = 1 ∨ etype = 2 ∨ etype = 3 then "high" else "medium"
  let key := service ++ "-" ++ error_type
  let incidentsAndEffects : List (String × Incident) × List EDEffect :=
    match lookupInc st.incidents key with
    | none =>
      (st.incidents ++
         [(key, { service := service, error_type := error_type, severity := severity,
                  start_time := ts, error_count := 1, resolved := false })],
       [EDEffect.incidentGaugeInc service severity])
    | some _ =>
      (st.incidents.map (fun p =>
         if p.1 = key then (p.1, { p.2 with error_count := p.2.error_count + 1 }) else p),
       [])
  let fc := st.failure_count service + 1
  let total : Nat := if st.deployment_count service = 0 then 100 else st.deployment_count service
  let rate : ℚ := ((fc : ℚ) / (total : ℚ)) * 100
  ({ incidents := incidentsAndEffects.1,
     failure_count := fun s => if s = service then fc else st.failure_count s,
     deployment_count := st.deployment_count },
   EDEffect.errorCounterInc service error_type severity ::
     (incidentsAndEffects.2 ++ [EDEffect.failureRateSet service "production" rate]))

/-- The loop body of `ErrorDetector.check_incident_recovery` (lines 298-330)
over the incident list: a resolved record is skipped (kept), an unresolved
record whose age since start_time exceeds 300 seconds is marked resolved,
its MTTR sample (now - start_time, in seconds) is observed, the active
gauge is decremented, and the record is deleted from the dict in the same
iteration (net effect on the table: removal); any other record is kept.
Note the source compares against start_time — the time the incident was
opened — not against any last-seen timestamp. -/
def sweepIncidents (now : ℚ) :
    List (String × Incident) → List (String × Incident) × List EDEffect
  | [] => ([], [])
  | (k, inc) :: rest =>
    if inc.resolved then
      let r := sweepIncidents now rest
      ((k, inc) :: r.1, r.2)
    else if (now - inc.start_time) / 1000000000 > 300 then
      let r := sweepIncidents now rest
      (r.1,
       EDEffect.mttrObserve inc.service inc.severity ((now - inc.start_time) / 1000000000) ::
         EDEffect.incidentGaugeDec inc.service inc.severity :: r.2)
    else
      let r := sweepIncidents now rest
      ((k, inc) :: r.1, r.2)

/-- `ErrorDetector.check_incident_recovery`, as a state transition at wall
clock `now` (nanoseconds). -/
def checkIncidentRecovery (st : EDState) (now : ℚ) : EDState × List EDEffect :=
  let r := sweepIncidents now st.incidents
  ({ st with incidents := r.1 }, r.2)

/-- One interaction of the error detector's main loop with its state: either
an error event dispatched to `process_error_event`, or a periodic recovery
sweep (`check_incident_recovery`, fired every 30 seconds by `run`). -/
inductive EDStep where
  | error (ts : ℚ) (comm : String) (etype : Nat)
  | sweep (now : ℚ)

def edStep (st : EDState) : EDStep → EDState × List EDEffect
  | EDStep.error ts comm etype => processErrorEvent st ts comm etype
  | EDStep.sweep now => checkIncidentRecovery st now

def runED (st : EDState) : List EDStep → EDState × List EDEffect
  | [] => (st, [])
  | s :: ss =>
    let r := edStep st s
    let rest := runED r.1 ss
    (rest.1, r.2 ++ rest.2)

/-- The state built by `ErrorDetector.__init__`: empty incidents dict, zeroed
counters. -/
def emptyEDState : EDState :=
  { incidents := [], failure_count := fun _ => 0, deployment_count := fun _ => 0 }

/-- The kernel-side incident record of the eBPF `incidents` map
(error_detector.py bpf_program lines 45-51), keyed by the faulting process
comm.  Counters are the C types u32/u8; error_count arithmetic is therefore
reduced mod 2^32. -/
structure KIncident where
  start_time : Nat
  end_time : Nat
  error_count : Nat
  severity : Nat
  resolved : Nat
  deriving DecidableEq, Repr

/-- The incident-tracking block of the kernel `signal_generate` probe
(bpf_program lines 74-86): a missing record is created with error_count 1 and
severity 3 (high); an existing record gets error_count incremented and, once
the new count exceeds 5, severity overwritten with 4 (critical). -/
def kernelIncidentStep (m : String → Option KIncident) (comm : String) (ts : Nat) :
    String → Option KIncident :=
  match m comm with
  | none =>
    mapUpd m comm (some { start_time := ts, end_time := 0, error_count := 1,
                          severity := 3, resolved := 0 })
  | some inc =>
    let ec := (inc.error_count + 1) % 2 ^ 32
    let sev := if 5 < ec then 4 else inc.severity
    mapUpd m comm (some { inc with error_count := ec, severity := sev })

theorem lookupInc_map_bump (l : List (String × Incident)) (key : String)
    (inc : Incident) (g : Incident → Incident) (h : lookupInc l key = some inc) :
    lookupInc (l.map (fun p => if p.1 = key then (p.1, g p.2) else p)) key =
      some (g inc) := by
  induction l with
  | nil => simp [lookupInc] at h
  | cons a l ih =>
    rcases a with ⟨k0, i0⟩
    by_cases hk : k0 = key
    · subst hk
      simp only [lookupInc, List.map_cons, List.find?, beq_self_eq_true, if_true,
        eq_self_iff_true, Option.map_some', Option.some.injEq] at h ⊢
      rw [h]
    · have hb : (k0 == key) = false := by simp [hk]
      simp only [lookupInc, List.map_cons, List.find?, if_neg hk, hb] at h ⊢
      exact ih h

theorem map_bump_keys (l : List (String × Incident)) (key : String)
    (g : Incident → Incident) :
    (l.map (fun p => if p.1 = key then (p.1, g p.2) else p)).map (fun p => p.1) =
      l.map (fun p => p.1) := by
  induction l with
  | nil => rfl
  | cons a l ih =>
    simp only [List.map_cons, ih, List.cons.injEq, and_true]
    by_cases hk : a.1 = key <;> simp [hk]

/-- C1, evaluated on the code at a failing input: an incident opened at
t = 0 that receives a second error at t = 200 s is nonetheless resolved by the
sweep at t = 301 s — the sweep compares now - start_time (301 s > 300), not
now - last_seen (101 s ≤ 300, and no last-seen timestamp is even stored) —
emitting an MTTR sample of 301 s labelled by service and severity and removing
the record from the incidents table. -/
theorem recovery_sweep_uses_start_time_not_last_seen :
    ((runED emptyEDState
        [EDStep.error 0 "svc" 7, EDStep.error 200000000000 "svc" 7,
         EDStep.sweep 301000000000]).1.incidents = []) ∧
    (EDEffect.mttrObserve "svc" "medium" 301 ∈
      (runED emptyEDState
        [EDStep.error 0 "svc" 7, EDStep.error 200000000000 "svc" 7,
         EDStep.sweep 301000000000]).2) ∧
    ((301000000000 : ℚ) - 200000000000) / 1000000000 ≤ 300 := by
  refine ⟨?_, ?_, by norm_num⟩ <;>
    norm_num [runED, edStep, processErrorEvent, checkIncidentRecovery, sweepIncidents,
      lookupInc, getErrorTypeLabel, emptyEDState, List.find?]

/-- C2 counterexample: six errors on the same key leave the user-space
incident record at error_count = 6 with severity still "medium" — the
user-space table never escalates severity to critical. -/
theorem six_errors_severity_stays_medium :
    (lookupInc (runED emptyEDState
        [EDStep.error 0 "svc" 7, EDStep.error 1 "svc" 7, EDStep.error 2 "svc" 7,
         EDStep.error 3 "svc" 7, EDStep.error 4 "svc" 7, EDStep.error 5 "svc" 7]).1.incidents
      "svc-exception" =
      some { service := "svc", error_type := "exception", severity := "medium",
             start_time := 0, error_count := 6, resolved := false }) ∧
    ("medium" : String) ≠ "critical" := by
  have hk : ("svc" ++ "-" ++ "exception" == "svc-exception") = true := by decide
  refine ⟨?_, by decide⟩
  norm_num [runED, edStep, processErrorEvent, lookupInc, getErrorTypeLabel, emptyEDState,
    List.find?, hk]

/-- C2 amended: a further error event for an already-open user-space incident
key increments that record's error_count by one and creates no second record
(the dict's length and key list are unchanged), but leaves its severity at the
creation value; the escalation to critical (severity 4) once error_count
exceeds 5 exists only in the kernel-side per-comm segfault incident map. -/
theorem repeat_error_increments_without_second_record
    (st : EDState) (ts : ℚ) (comm : String) (etype : Nat) (inc : Incident)
    (h : lookupInc st.incidents (comm ++ "-" ++ getErrorTypeLabel etype) = some inc) :
    (lookupInc (processErrorEvent st ts comm etype).1.incidents
        (comm ++ "-" ++ getErrorTypeLabel etype) =
      some { inc with error_count := inc.error_count + 1 }) ∧
    (processErrorEvent st ts comm etype).1.incidents.length = st.incidents.length ∧
    ((processErrorEvent st ts comm etype).1.incidents.map (fun p => p.1) =
      st.incidents.map (fun p => p.1)) ∧
    ∀ (m : String → Option KIncident) (c : String) (tsn : Nat) (ki : KIncident),
      m c = some ki → 5 < (ki.error_count + 1) % 2 ^ 32 →
      kernelIncidentStep m c tsn c =
        some { ki with error_count := (ki.error_count + 1) % 2 ^ 32, severity := 4 } := by
  refine ⟨?_, ?_, ?_, ?_⟩
  · simp only [processErrorEvent, h]
    exact lookupInc_map_bump _ _ _
      (fun i => { i with error_count := i.error_count + 1 }) h
  · simp only [processErrorEvent, h, List.length_map]
  · simp only [processErrorEvent, h]
    exact map_bump_keys _ _ (fun i => { i with error_count := i.error_count + 1 })
  · intro m c tsn ki hm hgt
    simp only [kernelIncidentStep, hm, if_pos hgt]
    exact mapUpd_same _ _ _

theorem repeat_error_increments_without_second_record_witness :
    (lookupInc [("svc-exception",
        { service := "svc", error_type := "exception", severity := "medium",
          start_time := 0, error_count := 1, resolved := false })]
        ("svc" ++ "-" ++ getErrorTypeLabel 7) =
      some { service := "svc", error_type := "exception", severity := "medium",
             start_time := 0, error_count := 1, resolved := false }) ∧
    (lookupInc (processErrorEvent
        { incidents := [("svc-exception",
            { service := "svc", error_type := "exception", severity := "medium",
              start_time := 0, error_count := 1, resolved := false })],
          failure_count := fun _ => 0, deployment_count := fun _ => 0 }
        5 "svc" 7).1.incidents ("svc" ++ "-" ++ getErrorTypeLabel 7) =
      some { service := "svc", error_type := "exception", severity := "medium",
             start_time := 0, error_count := 2, resolved := false }) ∧
    kernelIncidentStep (mapUpd (fun _ => none) "p"
        (some { start_time := 0, end_time := 0, error_count := 5, severity := 3,
                resolved := 0 })) "p" 9 "p" =
      some { start_time := 0, end_time := 0, error_count := 6, severity := 4,
             resolved := 0 } := by
  have h : lookupInc [("svc-exception",
      { service := "svc", error_type := "exception", severity := "medium",
        start_time := 0, error_count := 1, resolved := false })]
      ("svc" ++ "-" ++ getErrorTypeLabel 7) =
      some { service := "svc", error_type := "exception", severity := "medium",
             start_time := 0, error_count := 1, resolved := false } := rfl
  refine ⟨h, ?_, ?_⟩
  · exact (repeat_error_increments_without_second_record
      { incidents := [("svc-exception",
          { service := "svc", error_type := "exception", severity := "medium",
            start_time := 0, error_count := 1, resolved := false })],
        failure_count := fun _ => 0, deployment_count := fun _ => 0 }
      5 "svc" 7
      { service := "svc", error_type := "exception", severity := "medium",
        start_time := 0, error_count := 1, resolved := false } h).1
  · exact (repeat_error_increments_without_second_record
      { incidents := [("svc-exception",
          { service := "svc", error_type := "exception", severity := "medium",
            start_time := 0, error_count := 1, resolved := false })],
        failure_count := fun _ => 0, deployment_count := fun _ => 0 }
      5 "svc" 7
      { service := "svc", error_type := "exception", severity := "medium",
        start_time := 0, error_count := 1, resolved := false } h).2.2.2
      (mapUpd (fun _ => none) "p"
        (some { start_time := 0, end_time := 0, error_count := 5, severity := 3,
                resolved := 0 }))
      "p" 9
      { start_time := 0, end_time := 0, error_count := 5, severity := 3, resolved := 0 }
      rfl (by decide)

/-- Entries of the incident dict all have resolved = False. -/
def allUnresolved (l : List (String × Incident)) : Prop :=
  ∀ p ∈ l, p.2.resolved = false

theorem processErrorEvent_allUnresolved (st : EDState) (ts : ℚ) (comm : String)
    (etype : Nat) (h : allUnresolved st.incidents) :
    allUnresolved (processErrorEvent st ts comm etype).1.incidents := by
  intro p hp
  simp only [processErrorEvent] at hp
  cases hl : lookupInc st.incidents (comm ++ "-" ++ getErrorTypeLabel etype) with
  | none =>
    simp only [hl, List.mem_append, List.mem_singleton] at hp
    rcases hp with hp | hp
    · exact h p hp
    · rw [hp]
  | some i0 =>
    simp only [hl, List.mem_map] at hp
    obtain ⟨q, hq, rfl⟩ := hp
    by_cases hk : q.1 = comm ++ "-" ++ getErrorTypeLabel etype
    · simp only [if_pos hk]
      exact h q hq
    · simp only [if_neg hk]
      exact h q hq

theorem sweepIncidents_mem (now : ℚ) (l : List (String × Incident))
    (p : String × Incident) (hp : p ∈ (sweepIncidents now l).1) : p ∈ l := by
  induction l with
  | nil => exact hp
  | cons a l ih =>
    rcases a with ⟨k, inc⟩
    simp only [sweepIncidents] at hp
    by_cases h1 : inc.resolved = true
    · rw [if_pos h1] at hp
      rcases List.mem_cons.mp hp with h | h
      · exact List.mem_cons.mpr (Or.inl h)
      · exact List.mem_cons.mpr (Or.inr (ih h))
    · rw [if_neg h1] at hp
      by_cases h2 : (now - inc.start_time) / 1000000000 > 300
      · rw [if_pos h2] at hp
        exact List.mem_cons.mpr (Or.inr (ih hp))
      · rw [if_neg h2] at hp
        rcases List.mem_cons.mp hp with h | h
        · exact List.mem_cons.mpr (Or.inl h)
        · exact List.mem_cons.mpr (Or.inr (ih h))

theorem edStep_allUnresolved (st : EDState) (s : EDStep) (h : allUnresolved st.incidents) :
    allUnresolved (edStep st s).1.incidents := by
  cases s with
  | error ts comm etype => exact processErrorEvent_allUnresolved st ts comm etype h
  | sweep now =>
    intro p hp
    exact h p (sweepIncidents_mem now st.incidents p hp)

theorem runED_allUnresolved (steps : List EDStep) (st : EDState)
    (h : allUnresolved st.incidents) : allUnresolved (runED st steps).1.incidents := by
  induction steps generalizing st with
  | nil => exact h
  | cons s ss ih =>
    exact ih _ (edStep_allUnresolved st s h)

theorem lookupInc_mem (l : List (String × Incident)) (k : String) (inc : Incident)
    (h : lookupInc l k = some inc) : ∃ k', (k', inc) ∈ l := by
  unfold lookupInc at h
  cases hf : l.find? (fun p => p.1 == k) with
  | none => rw [hf] at h; simp at h
  | some q =>
    rw [hf] at h
    simp only [Option.map_some', Option.some.injEq] at h
    refine ⟨q.1, ?_⟩
    rw [← h]
    exact List.mem_of_find?_eq_some hf

theorem lookupInc_append_new (l : List (String × Incident)) (k : String) (inc : Incident)
    (h : lookupInc l k = none) : lookupInc (l ++ [(k, inc)]) k = some inc := by
  induction l with
  | nil => simp [lookupInc, List.find?]
  | cons a l ih =>
    cases hb : (a.1 == k) with
    | true =>
      simp only [lookupInc, List.find?, hb] at h
      simp at h
    | false =>
      simp only [lookupInc, List.find?, hb] at h
      simp only [lookupInc, List.cons_append, List.find?, hb]
      exact ih h

/-- C9: after any sequence of error events and recovery sweeps from the fresh
state, every record still present in the incidents table has resolved = False
(the resolving sweep deletes the record it marks resolved in the same step);
and an error for a key with no record — in particular a key whose record was
just removed by a resolving sweep — creates a fresh record with error_count 1,
the new event timestamp as start_time, and resolved = False. -/
theorem incidents_present_are_unresolved :
    (∀ (steps : List EDStep) (k : String) (inc : Incident),
        lookupInc (runED emptyEDState steps).1.incidents k = some inc →
        inc.resolved = false) ∧
    ∀ (st : EDState) (ts : ℚ) (comm : String) (etype : Nat),
      lookupInc st.incidents (comm ++ "-" ++ getErrorTypeLabel etype) = none →
      lookupInc (processErrorEvent st ts comm etype).1.incidents
          (comm ++ "-" ++ getErrorTypeLabel etype) =
        some { service := comm, error_type := getErrorTypeLabel etype,
               severity := if etype = 1 ∨ etype = 2 ∨ etype = 3 then "high" else "medium",
               start_time := ts, error_count := 1, resolved := false } := by
  constructor
  · intro steps k inc h
    obtain ⟨k', hmem⟩ := lookupInc_mem _ _ _ h
    have hinv := runED_allUnresolved steps emptyEDState
      (by intro p hp; simp [emptyEDState] at hp)
    exact hinv (k', inc) hmem
  · intro st ts comm etype h
    simp only [processErrorEvent, h]
    exact lookupInc_append_new _ _ _ h

theorem incidents_present_are_unresolved_witness :
    (({ service := "svc", error_type := "exception", severity := "medium",
        start_time := 0, error_count := 1, resolved := false } : Incident).resolved =
      false) ∧
    lookupInc (processErrorEvent emptyEDState 0 "svc" 7).1.incidents
        ("svc" ++ "-" ++ getErrorTypeLabel 7) =
      some { service := "svc", error_type := getErrorTypeLabel 7,
             severity := if (7 : Nat) = 1 ∨ (7 : Nat) = 2 ∨ (7 : Nat) = 3 then "high"
                         else "medium",
             start_time := 0, error_count := 1, resolved := false } :=
  ⟨incidents_present_are_unresolved.1 [EDStep.error 0 "svc" 7] "svc-exception"
      { service := "svc", error_type := "exception", severity := "medium",
        start_time := 0, error_count := 1, resolved := false } rfl,
   incidents_present_are_unresolved.2 emptyEDState 0 "svc" 7 rfl⟩

end ErrorDetector

/-- Unsigned 64-bit subtraction a - b exactly as the C code computes it
(wrap-around, never negative), for a, b < 2^64. -/
def u64sub (a b : Nat) : Nat := (a + 2 ^ 64 - b) % 2 ^ 64

namespace LatencyTracker

/-- The kernel request record of the `requests` BPF hash
(latency_tracker.py bpf_program lines 22-35); fields the probes never write
stay at their zero initialisation. -/
structure Request where
  start_ns : Nat
  end_ns : Nat
  pid : Nat
  tid : Nat
  sport : Nat
  dport : Nat
  http_method : String
  http_path : String
  completed : Bool
  deriving DecidableEq, Repr

/-- `gen_request_id` (lines 50-52): `((u64)pid << 32) | ((u64)sport << 16) |
dport`.  pid is a u32 and sport/dport are u16, so the shifted fields occupy
disjoint bit ranges and the bitwise or equals this sum. -/
def genRequestId (pid sport dport : Nat) : Nat :=
  pid * 2 ^ 32 + sport * 2 ^ 16 + dport

/-- A key of the `latency_hist` BPF histogram: (service, endpoint,
status_code). -/
abbrev HistKey := String × String × Nat

/-- BCC `table.increment(key, amount)` on an insertion-ordered map: bump the
entry if the key is present, insert it otherwise. -/
def histIncrementBy : List (HistKey × Nat) → HistKey → Nat → List (HistKey × Nat)
  | [], k, amount => [(k, amount)]
  | p :: rest, k, amount =>
    if p.1 = k then (p.1, p.2 + amount) :: rest
    else p :: histIncrementBy rest k amount

/-- State of the latency tracker: the kernel `requests` hash keyed by the u64
request id, and the kernel `latency_hist` histogram that the user-space loop
periodically drains. -/
structure LTState where
  requests : Nat → Option Request
  hist : List (HistKey × Nat)

/-- `trace_accept_return` (lines 55-81): accepts on source ports 80, 8080,
443, 8443 insert a fresh incomplete request under
gen_request_id(pid, sport, dport); every other port is ignored. -/
def traceAcceptReturn (st : LTState) (pid tid sport dport ts : Nat) : LTState :=
  if sport ≠ 80 ∧ sport ≠ 8080 ∧ sport ≠ 443 ∧ sport ≠ 8443 then st
  else
    { st with requests :=
        (mapUpd st.requests (genRequestId pid sport dport)
          (some { start_ns := ts, end_ns := 0, pid := pid, tid := tid, sport := sport,
                  dport := dport, http_method := "", http_path := "",
                  completed := false })) }

/-- The port-guessing loop of `trace_close_entry` (lines 92-99): iterate
p = 8000..8999 and stop at the first present, not-yet-completed request at
gen_request_id(pid, 8080, p).  Returns the loop offset i (so the port is
8000 + i). -/
def closeScan (tbl : Nat → Option Request) (pid : Nat) : Option Nat :=
  (List.range 1000).find? (fun i =>
    match tbl (genRequestId pid 8080 (8000 + i)) with
    | some r => !r.completed
    | none => false)

/-- `trace_close_entry` (lines 84-124).  After the loop, req/req_id hold the
first matching incomplete request if the loop broke, and otherwise the result
of the loop's final lookup at port 8999 (possible only for an already
completed record).  A found request gets end_ns and completed set, the
fixed-key latency histogram is increased by the latency in microseconds
(u64 arithmetic), the completed record is pushed to user space, and
the entry is deleted from the requests table. -/
def traceCloseEntry (st : LTState) (pid ts : Nat) : LTState × List Request :=
  let found : Option (Nat × Request) :=
    match closeScan st.requests pid with
    | some i =>
      match st.requests (genRequestId pid 8080 (8000 + i)) with
      | some r => some (genRequestId pid 8080 (8000 + i), r)
      | none => none
    | none =>
      match st.requests (genRequestId pid 8080 8999) with
      | some r => some (genRequestId pid 8080 8999, r)
      | none => none
  match found with
  | none => (st, [])
  | some (id, r) =>
    let completedReq := { r with end_ns := ts, completed := true }
    let latency_us := u64sub ts r.start_ns / 1000
    ({ requests := mapUpd st.requests id none,
       hist := histIncrementBy st.hist ("api-service", "/api/metrics", 200) latency_us },
     [completedReq])

/-- `trace_tcp_sendmsg` (lines 127-159): sends to database ports 5432/3306
open a query request keyed with sport 0; all other ports are ignored. -/
def traceTcpSendmsg (st : LTState) (pid dport ts : Nat) : LTState :=
  if dport ≠ 5432 ∧ dport ≠ 3306 then st
  else
    { st with requests :=
        (mapUpd st.requests (genRequestId pid 0 dport)
          (some { start_ns := ts, end_ns := 0, pid := pid, tid := 0, sport := 0,
                  dport := dport, http_method := "QUERY",
                  http_path := if dport = 5432 then "postgresql" else "mysql",
                  completed := false })) }

/-- `LatencyTracker.print_histogram` (lines 279-292), the only periodic
operation of the main loop (lines 294-318) besides polling: it prints and
clears the latency histogram.  It does not touch the requests table and emits
no completed request. -/
def printHistogram (st : LTState) : LTState × List Request :=
  ({ st with hist := [] }, [])

/-- One interaction with the latency tracker's state: a kernel probe firing,
or the periodic 60-second histogram drain of the main loop. -/
inductive LTEvent where
  | acceptReturn (pid tid sport dport ts : Nat)
  | closeEntry (pid ts : Nat)
  | tcpSendmsg (pid dport ts : Nat)
  | tick
  deriving Repr

def ltStep (st : LTState) : LTEvent → LTState × List Request
  | LTEvent.acceptReturn pid tid sport dport ts =>
    (traceAcceptReturn st pid tid sport dport ts, [])
  | LTEvent.closeEntry pid ts => traceCloseEntry st pid ts
  | LTEvent.tcpSendmsg pid dport ts => (traceTcpSendmsg st pid dport ts, [])
  | LTEvent.tick => printHistogram st

def runLT (st : LTState) : List LTEvent → LTState × List Request
  | [] => (st, [])
  | e :: es =>
    let r := ltStep st e
    let rest := runLT r.1 es
    (rest.1, r.2 ++ rest.2)

def ltEmpty : LTState := ⟨fun _ => none, []⟩

/-- An open request accepted on source port 8080, destination port 8500. -/
def ltDemo : LTState := traceAcceptReturn ltEmpty 1 1 8080 8500 0

/-- An open request accepted on source port 80 (never completable). -/
def ltDemo80 : LTState := traceAcceptReturn ltEmpty 2 1 80 8500 0

/-- C7 counterexample: an ActiveRequest opened at t = 0 whose close event
never arrives is still in the requests table after the periodic task runs,
however late — the periodic task clears only the latency histogram and never
removes table entries, so the claimed max-age eviction does not happen
(it emits no completed sample either). -/
theorem request_not_evicted_by_periodic_task :
    (((printHistogram ltDemo).1.requests (genRequestId 1 8080 8500)).isSome = true) ∧
    (printHistogram ltDemo).2 = [] := by
  constructor
  · decide
  · rfl

/-- C7 amended: the latency tracker has no max-age eviction sweep: its only
periodic operation drains and clears the latency histogram, leaves the
requests table pointwise unchanged, and emits no completed sample — so an
open request whose close event never arrives stays in the table. -/
theorem periodic_task_never_evicts (st : LTState) :
    (printHistogram st).1.requests = st.requests ∧
    (printHistogram st).2 = [] ∧
    (printHistogram st).1.hist = [] :=
  ⟨rfl, rfl, rfl⟩

theorem closeScan_lt (tbl : Nat → Option Request) (pid i : Nat)
    (h : closeScan tbl pid = some i) : i < 1000 := by
  unfold closeScan at h
  have := List.mem_of_find?_eq_some h
  exact List.mem_range.mp this

theorem traceCloseEntry_delta (st : LTState) (pid ts id : Nat)
    (h : (traceCloseEntry st pid ts).1.requests id ≠ st.requests id) :
    ∃ p, 8000 ≤ p ∧ p < 9000 ∧ id = genRequestId pid 8080 p := by
  unfold traceCloseEntry at h
  cases hscan : closeScan st.requests pid with
  | some i =>
    cases hlook : st.requests (genRequestId pid 8080 (8000 + i)) with
    | some r =>
      simp only [hscan, hlook] at h
      by_cases hid : id = genRequestId pid 8080 (8000 + i)
      · have hi : i < 1000 := closeScan_lt st.requests pid i hscan
        exact ⟨8000 + i, by omega, by omega, hid⟩
      · exact absurd (mapUpd_other _ _ _ _ hid) h
    | none =>
      simp only [hscan, hlook] at h
      exact absurd rfl h
  | none =>
    cases hlook : st.requests (genRequestId pid 8080 8999) with
    | some r =>
      simp only [hscan, hlook] at h
      by_cases hid : id = genRequestId pid 8080 8999
      · exact ⟨8999, by omega, by omega, hid⟩
      · exact absurd (mapUpd_other _ _ _ _ hid) h
    | none =>
      simp only [hscan, hlook] at h
      exact absurd rfl h

theorem genRequestId_close_collision (pid sport dport pid' p : Nat)
    (hsport : sport < 2 ^ 16) (hdport : dport < 2 ^ 16)
    (hp1 : 8000 ≤ p) (hp2 : p < 9000)
    (h : genRequestId pid sport dport = genRequestId pid' 8080 p) :
    sport = 8080 ∧ dport = p := by
  have e1 : (2 : Nat) ^ 32 = 4294967296 := by norm_num
  have e2 : (2 : Nat) ^ 16 = 65536 := by norm_num
  unfold genRequestId at h
  rw [e1, e2] at h
  rw [e2] at hsport hdport
  omega

theorem ltStep_keeps_unmatched (st : LTState) (e : LTEvent) (pid sport dport : Nat)
    (r : Request) (hsport : sport < 2 ^ 16) (hdport : dport < 2 ^ 16)
    (hcase : sport = 80 ∨ sport = 443 ∨ sport = 8443 ∨ dport < 8000 ∨ 9000 ≤ dport)
    (hr : st.requests (genRequestId pid sport dport) = some r) :
    ∃ r', (ltStep st e).1.requests (genRequestId pid sport dport) = some r' := by
  cases e with
  | acceptReturn pid' tid' sport' dport' ts' =>
    simp only [ltStep, traceAcceptReturn]
    split
    · exact ⟨r, hr⟩
    · by_cases hk : genRequestId pid sport dport = genRequestId pid' sport' dport'
      · refine ⟨{ start_ns := ts', end_ns := 0, pid := pid', tid := tid', sport := sport',
                  dport := dport', http_method := "", http_path := "",
                  completed := false }, ?_⟩
        show mapUpd st.requests (genRequestId pid' sport' dport') _ _ = _
        rw [hk, mapUpd_same]
      · refine ⟨r, ?_⟩
        show mapUpd st.requests (genRequestId pid' sport' dport') _ _ = _
        rw [mapUpd_other _ _ _ _ hk]
        exact hr
  | closeEntry pid' ts' =>
    by_cases hch : (traceCloseEntry st pid' ts').1.requests (genRequestId pid sport dport) =
        st.requests (genRequestId pid sport dport)
    · refine ⟨r, ?_⟩
      show (traceCloseEntry st pid' ts').1.requests _ = some r
      rw [hch]
      exact hr
    · exfalso
      obtain ⟨p, hp1, hp2, hpe⟩ := traceCloseEntry_delta st pid' ts' _ hch
      obtain ⟨hsp, hdp⟩ :=
        genRequestId_close_collision pid sport dport pid' p hsport hdport hp1 hp2 hpe
      rcases hcase with hc | hc | hc | hc | hc <;> omega
  | tcpSendmsg pid' dport' ts' =>
    simp only [ltStep, traceTcpSendmsg]
    split
    · exact ⟨r, hr⟩
    · by_cases hk : genRequestId pid sport dport = genRequestId pid' 0 dport'
      · refine ⟨{ start_ns := ts', end_ns := 0, pid := pid', tid := 0, sport := 0,
                  dport := dport', http_method := "QUERY",
                  http_path := if dport' = 5432 then "postgresql" else "mysql",
                  completed := false }, ?_⟩
        show mapUpd st.requests (genRequestId pid' 0 dport') _ _ = _
        rw [hk, mapUpd_same]
      · refine ⟨r, ?_⟩
        show mapUpd st.requests (genRequestId pid' 0 dport') _ _ = _
        rw [mapUpd_other _ _ _ _ hk]
        exact hr
  | tick => exact ⟨r, hr⟩

/-- C10: any change `trace_close_entry` makes to the requests table is at a
key generated from the closing pid with source port 8080 and a guessed
destination port in [8000, 9000); consequently a request opened by the accept
probe with source port 80, 443 or 8443 — or with a destination port outside
[8000, 9000) — is never matched by any close and stays in the requests table
across every subsequent event sequence. -/
theorem close_only_matches_8080_range :
    (∀ (st : LTState) (pid ts id : Nat),
        (traceCloseEntry st pid ts).1.requests id ≠ st.requests id →
        ∃ p, 8000 ≤ p ∧ p < 9000 ∧ id = genRequestId pid 8080 p) ∧
    ∀ (st : LTState) (es : List LTEvent) (pid sport dport : Nat) (r : Request),
      sport < 2 ^ 16 → dport < 2 ^ 16 →
      (sport = 80 ∨ sport = 443 ∨ sport = 8443 ∨ dport < 8000 ∨ 9000 ≤ dport) →
      st.requests (genRequestId pid sport dport) = some r →
      ∃ r', (runLT st es).1.requests (genRequestId pid sport dport) = some r' := by
  constructor
  · exact traceCloseEntry_delta
  · intro st es pid sport dport r hsport hdport hcase hr
    induction es generalizing st r with
    | nil => exact ⟨r, hr⟩
    | cons e es ih =>
      obtain ⟨r1, hr1⟩ := ltStep_keeps_unmatched st e pid sport dport r hsport hdport hcase hr
      exact ih (ltStep st e).1 r1 hr1

theorem close_only_matches_8080_range_witness :
    ((traceCloseEntry ltDemo 1 99).1.requests (genRequestId 1 8080 8500) ≠
       ltDemo.requests (genRequestId 1 8080 8500)) ∧
    (∃ p, 8000 ≤ p ∧ p < 9000 ∧ genRequestId 1 8080 8500 = genRequestId 1 8080 p) ∧
    ∃ r', (runLT ltDemo80 [LTEvent.closeEntry 2 50, LTEvent.tick]).1.requests
        (genRequestId 2 80 8500) = some r' := by
  have hne : (traceCloseEntry ltDemo 1 99).1.requests (genRequestId 1 8080 8500) ≠
      ltDemo.requests (genRequestId 1 8080 8500) := by decide
  refine ⟨hne, ?_, ?_⟩
  · exact close_only_matches_8080_range.1 ltDemo 1 99 _ hne
  · exact close_only_matches_8080_range.2 ltDemo80 [LTEvent.closeEntry 2 50, LTEvent.tick]
      2 80 8500
      { start_ns := 0, end_ns := 0, pid := 2, tid := 1, sport := 80, dport := 8500,
        http_method := "", http_path := "", completed := false }
      (by norm_num) (by norm_num) (by norm_num) (by decide)

end LatencyTracker

namespace PerformanceMonitor

/-- Per-task statistics record of the kernel `task_stats` hash
(performance_monitor.py bpf_program lines 21-33): the fields the scheduler
probes read and write.  u64/u32 counters, so arithmetic wraps mod 2^64 /
2^32. -/
structure TaskStat where
  timestamp : Nat
  runtime_ns : Nat
  wait_time_ns : Nat
  ctx_switches : Nat
  page_faults : Nat
  comm : String
  deriving DecidableEq, Repr

/-- Modelled from the spec: the bucket index of a log2 histogram observation.
The kernel programs compute the index with the BCC helper `bpf_log2l`, whose
definition belongs to the external BCC toolkit and is not part of this
repository's sources; §4.3 of the design specifies the bucket of an observed
value as floor(log2(value)), which is Nat.log2. -/
def log2Bucket (v : Nat) : Nat := Nat.log2 v

/-- BCC `histogram.increment(bucket)` on an insertion-ordered bucket table
(bucket index -> count): bump the slot if present, create it at 1
otherwise. -/
def histIncrement : List (Nat × Nat) → Nat → List (Nat × Nat)
  | [], k => [(k, 1)]
  | p :: rest, k =>
    if p.1 = k then (p.1, p.2 + 1) :: rest else p :: histIncrement rest k

/-- Modelled from the spec: `observe` of the histogram aggregator (§4.3) —
a positive observed value increments the bucket for floor(log2(value)); a
non-positive value is rejected (here: dropped without touching any
bucket). -/
def observe (h : List (Nat × Nat)) (v : Nat) : List (Nat × Nat) :=
  if v = 0 then h else histIncrement h (log2Bucket v)

def observeAll (h : List (Nat × Nat)) (vs : List Nat) : List (Nat × Nat) :=
  vs.foldl observe h

/-- The flush loop of `PerformanceMonitor.update_latency_metrics`
(lines 281-299): each bucket k with a positive count contributes count
separate observations at the reconstructed value 2^k; buckets with zero
count contribute nothing. -/
def flushValues (h : List (Nat × Nat)) : List ℚ :=
  (h.map (fun p => if 0 < p.2 then List.replicate p.2 ((2 : ℚ) ^ p.1) else [])).flatten

/-- `update_latency_metrics` for one histogram: emit the reconstructed
observations, then `hist.clear()` resets every bucket. -/
def flush (h : List (Nat × Nat)) : List ℚ × List (Nat × Nat) :=
  (flushValues h, [])

/-- Total count held by the histogram's buckets. -/
def sumCounts (h : List (Nat × Nat)) : Nat := (h.map (fun p => p.2)).sum

theorem flushValues_cons (p : Nat × Nat) (rest : List (Nat × Nat)) :
    flushValues (p :: rest) =
      (if 0 < p.2 then List.replicate p.2 ((2 : ℚ) ^ p.1) else []) ++ flushValues rest := by
  simp [flushValues]

theorem flushValues_histIncrement (h : List (Nat × Nat)) (k : Nat) :
    (flushValues (histIncrement h k)).Perm ((2 : ℚ) ^ k :: flushValues h) := by
  induction h with
  | nil =>
    simp [flushValues, histIncrement]
  | cons p rest ih =>
    rcases p with ⟨k0, c⟩
    by_cases hk : k0 = k
    · subst hk
      rw [histIncrement, if_pos rfl, flushValues_cons, flushValues_cons]
      rcases Nat.eq_zero_or_pos c with rfl | hc
      · simp [List.replicate_succ]
      · simp only [hc, if_pos hc, Nat.succ_pos, if_pos (Nat.succ_pos c),
          List.replicate_succ, List.cons_append]
        exact List.Perm.refl _
    · rw [histIncrement, if_neg hk, flushValues_cons, flushValues_cons]
      have h1 := ih.append_left
        (if 0 < c then List.replicate c ((2 : ℚ) ^ k0) else [])
      exact h1.trans (List.perm_middle)

theorem sumCounts_histIncrement (h : List (Nat × Nat)) (k : Nat) :
    sumCounts (histIncrement h k) = sumCounts h + 1 := by
  induction h with
  | nil => simp [sumCounts, histIncrement]
  | cons p rest ih =>
    rcases p with ⟨k0, c⟩
    by_cases hk : k0 = k
    · subst hk
      simp [sumCounts, histIncrement]
      omega
    · rw [histIncrement, if_neg hk]
      simp only [sumCounts, List.map_cons, List.sum_cons] at ih ⊢
      omega

theorem flushValues_observeAll (vs : List Nat) (h : List (Nat × Nat))
    (hv : ∀ v ∈ vs, 0 < v) :
    (flushValues (observeAll h vs)).Perm
      (vs.map (fun v => (2 : ℚ) ^ Nat.log2 v) ++ flushValues h) := by
  induction vs generalizing h with
  | nil => simp [observeAll]
  | cons v vs ih =>
    have hv0 : v ≠ 0 := Nat.pos_iff_ne_zero.mp (hv v (by simp))
    have hvs : ∀ w ∈ vs, 0 < w := fun w hw => hv w (by simp [hw])
    have h1 := ih (observe h v) hvs
    have h2 : observe h v = histIncrement h (Nat.log2 v) := by
      rw [observe, if_neg hv0]
      rfl
    have h3 := (flushValues_histIncrement h (Nat.log2 v)).append_left
      (vs.map (fun w => (2 : ℚ) ^ Nat.log2 w))
    have h4 : observeAll h (v :: vs) = observeAll (observe h v) vs := by
      simp [observeAll]
    rw [h4, h2]
    rw [h2] at h1
    refine (h1.trans h3).trans ?_
    simp only [List.map_cons]
    exact List.perm_middle

theorem sumCounts_observeAll (vs : List Nat) (h : List (Nat × Nat))
    (hv : ∀ v ∈ vs, 0 < v) :
    sumCounts (observeAll h vs) = sumCounts h + vs.length := by
  induction vs generalizing h with
  | nil => simp [observeAll]
  | cons v vs ih =>
    have hv0 : v ≠ 0 := Nat.pos_iff_ne_zero.mp (hv v (by simp))
    have hvs : ∀ w ∈ vs, 0 < w := fun w hw => hv w (by simp [hw])
    have h4 : observeAll h (v :: vs) = observeAll (observe h v) vs := by
      simp [observeAll]
    rw [h4, ih (observe h v) hvs, observe, if_neg hv0, sumCounts_histIncrement]
    simp only [List.length_cons]
    omega

/-- C5: observing N positive values and then flushing the log2 histogram
emits exactly N reconstructed observations (the flushed bucket counts sum to
N), the multiset of emitted values is exactly the multiset of
2^floor(log2 v) over the observed values v, and the flush leaves every
bucket at zero (the histogram is cleared). -/
theorem flush_reconstructs_all_observations (vs : List Nat) (hv : ∀ v ∈ vs, 0 < v) :
    sumCounts (observeAll [] vs) = vs.length ∧
    (flush (observeAll [] vs)).1.length = vs.length ∧
    ((flush (observeAll [] vs)).1).Perm (vs.map (fun v => (2 : ℚ) ^ Nat.log2 v)) ∧
    (flush (observeAll [] vs)).2 = [] := by
  have hperm : (flushValues (observeAll [] vs)).Perm
      (vs.map (fun v => (2 : ℚ) ^ Nat.log2 v)) := by
    have := flushValues_observeAll vs [] hv
    simpa [flushValues] using this
  refine ⟨?_, ?_, hperm, rfl⟩
  · have := sumCounts_observeAll vs [] hv
    simpa [sumCounts] using this
  · have := hperm.length_eq
    simpa using this

theorem flush_reconstructs_all_observations_witness :
    (∀ v ∈ [9, 9], 0 < v) ∧
    (sumCounts (observeAll [] [9, 9]) = ([9, 9] : List Nat).length ∧
     (flush (observeAll [] [9, 9])).1.length = ([9, 9] : List Nat).length ∧
     ((flush (observeAll [] [9, 9])).1).Perm
       ([9, 9].map (fun v => (2 : ℚ) ^ Nat.log2 v)) ∧
     (flush (observeAll [] [9, 9])).2 = []) ∧
    (flush (observeAll [] [9, 9])).1 = [8, 8] := by
  refine ⟨by decide, flush_reconstructs_all_observations [9, 9] (by decide), ?_⟩
  norm_num [flush, flushValues, observeAll, observe, log2Bucket, histIncrement, Nat.log2,
    List.replicate_succ]

/-- State of the performance monitor's scheduler tracking: the kernel
`task_stats` hash keyed by pid and the `sched_latency` log2 histogram. -/
structure PMState where
  task_stats : Nat → Option TaskStat
  sched_latency : List (Nat × Nat)

/-- The outgoing-task half of the `sched_switch` tracepoint (bpf_program
lines 74-87): if the previous task is tracked with a nonzero timestamp, its
runtime is increased by ts - timestamp in u64 arithmetic — no clamping — and
its context-switch counter bumped; if a wakeup left wait_time_ns nonzero,
the scheduling-latency histogram bucket for the wait (in microseconds) is
incremented and the field reset to 0. -/
def schedSwitchPrev (st : PMState) (prev_pid ts : Nat) :
    (Nat → Option TaskStat) × List (Nat × Nat) :=
  match st.task_stats prev_pid with
  | some pt =>
    if 0 < pt.timestamp then
      let runtime := u64sub ts pt.timestamp
      let rt := (pt.runtime_ns + runtime) % 2 ^ 64
      let cs := (pt.ctx_switches + 1) % 2 ^ 32
      if 0 < pt.wait_time_ns then
        let wait := u64sub ts pt.wait_time_ns
        (mapUpd st.task_stats prev_pid
           (some { pt with runtime_ns := rt, ctx_switches := cs, wait_time_ns := 0 }),
         histIncrement st.sched_latency (log2Bucket (wait / 1000)))
      else
        (mapUpd st.task_stats prev_pid
           (some { pt with runtime_ns := rt, ctx_switches := cs }),
         st.sched_latency)
    else (st.task_stats, st.sched_latency)
  | none => (st.task_stats, st.sched_latency)

/-- The incoming-task half of `sched_switch` (lines 89-100): the next task's
record is created zeroed with its comm if missing, and its timestamp set to
ts. -/
def schedSwitchNext (tbl : Nat → Option TaskStat) (next_pid : Nat)
    (next_comm : String) (ts : Nat) : Nat → Option TaskStat :=
  match tbl next_pid with
  | some nt => mapUpd tbl next_pid (some { nt with timestamp := ts })
  | none =>
    mapUpd tbl next_pid
      (some { timestamp := ts, runtime_ns := 0, wait_time_ns := 0, ctx_switches := 0,
              page_faults := 0, comm := next_comm })

/-- The `sched_switch` tracepoint handler (lines 69-100).  (The cpu_stats
block of the source, lines 102-117, reads the loop-local `runtime` variable
out of its scope and is not part of the per-task state modelled here.) -/
def schedSwitch (st : PMState) (prev_pid next_pid : Nat) (next_comm : String)
    (ts : Nat) : PMState :=
  let afterPrev := schedSwitchPrev st prev_pid ts
  { task_stats := schedSwitchNext afterPrev.1 next_pid next_comm ts,
    sched_latency := afterPrev.2 }

theorem schedSwitchNext_other (tbl : Nat → Option TaskStat) (next_pid : Nat)
    (next_comm : String) (ts k : Nat) (h : k ≠ next_pid) :
    schedSwitchNext tbl next_pid next_comm ts k = tbl k := by
  unfold schedSwitchNext
  cases tbl next_pid <;> exact mapUpd_other _ _ _ _ h

/-- A task record known to the table with timestamp 100, used as the concrete
clock-anomaly input. -/
def pmDemo : PMState :=
  ⟨mapUpd (fun _ => none) 1
    (some { timestamp := 100, runtime_ns := 0, wait_time_ns := 0, ctx_switches := 0,
            page_faults := 0, comm := "a" }), []⟩

/-- C6 counterexample: a context switch at ts = 40 for an outgoing task
last scheduled at 100 (a clock anomaly) does not have its runtime delta
clamped to zero — the u64 subtraction wraps and the accumulated runtime
becomes 2^64 - 60. -/
theorem clock_anomaly_not_clamped :
    (((schedSwitch pmDemo 1 2 "b" 40).task_stats 1).map (fun t => t.runtime_ns) =
      some (2 ^ 64 - 60)) ∧
    (2 : Nat) ^ 64 - 60 ≠ 0 := by
  exact ⟨by decide, by decide⟩

/-- C6 amended: sched_switch never clamps: the outgoing task's accumulated
runtime always increases by (ts - last_ts) reduced mod 2^64, which on a clock
anomaly (last_ts > ts) is the wrapped value 2^64 - (last_ts - ts) — a huge
positive number, never zero and never a literal negative. -/
theorem sched_switch_runtime_wraps (st : PMState) (prev_pid next_pid : Nat)
    (next_comm : String) (ts : Nat) (pt : TaskStat)
    (hpt : st.task_stats prev_pid = some pt) (hts : 0 < pt.timestamp)
    (hne : prev_pid ≠ next_pid)
    (hb1 : ts < 2 ^ 64) (hb2 : pt.timestamp < 2 ^ 64) :
    (∃ pt', (schedSwitch st prev_pid next_pid next_comm ts).task_stats prev_pid =
        some pt' ∧
      pt'.runtime_ns = (pt.runtime_ns + u64sub ts pt.timestamp) % 2 ^ 64) ∧
    (ts < pt.timestamp →
      u64sub ts pt.timestamp = 2 ^ 64 - (pt.timestamp - ts) ∧
      0 < u64sub ts pt.timestamp) := by
  constructor
  · have hprev : (schedSwitch st prev_pid next_pid next_comm ts).task_stats prev_pid =
        (schedSwitchPrev st prev_pid ts).1 prev_pid := by
      show schedSwitchNext _ next_pid next_comm ts prev_pid = _
      exact schedSwitchNext_other _ _ _ _ _ hne
    rw [hprev]
    unfold schedSwitchPrev
    simp only [hpt, if_pos hts]
    by_cases hw : 0 < pt.wait_time_ns
    · rw [if_pos hw]
      exact ⟨_, mapUpd_same _ _ _, rfl⟩
    · rw [if_neg hw]
      exact ⟨_, mapUpd_same _ _ _, rfl⟩
  · intro hlt
    have e64 : (2 : Nat) ^ 64 = 18446744073709551616 := by norm_num
    unfold u64sub
    rw [e64] at hb1 hb2 ⊢
    omega

theorem sched_switch_runtime_wraps_witness :
    (pmDemo.task_stats 1 =
      some { timestamp := 100, runtime_ns := 0, wait_time_ns := 0, ctx_switches := 0,
             page_faults := 0, comm := "a" }) ∧
    ((∃ pt', (schedSwitch pmDemo 1 2 "b" 40).task_stats 1 = some pt' ∧
        pt'.runtime_ns = (0 + u64sub 40 100) % 2 ^ 64) ∧
     ((40 : Nat) < 100 →
       u64sub 40 100 = 2 ^ 64 - (100 - 40) ∧ 0 < u64sub 40 100)) := by
  have hpt : pmDemo.task_stats 1 =
      some { timestamp := 100, runtime_ns := 0, wait_time_ns := 0, ctx_switches := 0,
             page_faults := 0, comm := "a" } := by decide
  exact ⟨hpt,
    sched_switch_runtime_wraps pmDemo 1 2 "b" 40
      { timestamp := 100, runtime_ns := 0, wait_time_ns := 0, ctx_switches := 0,
        page_faults := 0, comm := "a" }
      hpt (by decide) (by decide) (by decide) (by decide)⟩

end PerformanceMonitor

end DevOpsPlaybook
